import Mathlib

/-!
Verification of the simpleubjson Draft-8 codec (src/simpleubjson/draft8.py)
against its natural-language specification.

Shallow embedding conventions:
* a byte source is a `List Nat` of byte values (each in 0..255 on real input);
  `read n` returns up to `n` bytes, fewer at end of data, exactly like a
  Python file object's `read`;
* Python `unicode` text and `Decimal` values are represented by their UTF-8
  byte strings (`List Nat`), so `u.encode('utf-8')` / `bytes.decode('utf-8')`
  are identities of the model;
* Python floats carry their raw wire bytes (no IEEE-754 arithmetic is
  modelled; no claim depends on float semantics);
* exceptions become an error type `DErr` / `EncErr` in `Except`;
* the decoder's mutual recursion is driven by a fuel parameter; running out
  of fuel gives a distinguished error that real runs never produce once the
  fuel exceeds the work needed.
-/

namespace Draft8

/-- Models `source.read(n)` of a Python file-like object: up to `n` bytes. -/
def readN (n : Nat) (src : List Nat) : List Nat × List Nat :=
  (src.take n, src.drop n)

/-- Big-endian unsigned value of a byte string (`struct.unpack` with `>H`-style formats). -/
def beNat (bs : List Nat) : Nat :=
  bs.foldl (fun a b => a * 256 + b) 0

/-- Interpret an unsigned `bits`-bit value as two's-complement signed. -/
def toSigned (bits : Nat) (n : Nat) : Int :=
  if n < 2 ^ (bits - 1) then (n : Int) else (n : Int) - 2 ^ bits

/-- Big-endian bytes (width `w`) of a natural number (low `8*w` bits). -/
def natToBE (w : Nat) (n : Nat) : List Nat :=
  (List.range w).map (fun k => n / 256 ^ (w - 1 - k) % 256)

/-- Models `struct.pack` of a signed integer, big-endian, `w` bytes (two's complement). -/
def packBE (w : Nat) (i : Int) : List Nat :=
  natToBE w ((i % (2 ^ (8 * w))).toNat)

/-! Marker bytes, named as in the source. -/

def NOOP : Nat := 0x4E     -- 'N'
def EOS : Nat := 0x45      -- 'E'
def NULL : Nat := 0x5A     -- 'Z'
def FALSE : Nat := 0x46    -- 'F'
def TRUE : Nat := 0x54     -- 'T'
def INT8 : Nat := 0x42     -- 'B'
def INT16 : Nat := 0x69    -- 'i'
def INT32 : Nat := 0x49    -- 'I'
def INT64 : Nat := 0x4C    -- 'L'
def FLOAT : Nat := 0x64    -- 'd'
def DOUBLE : Nat := 0x44   -- 'D'
def STRING_S : Nat := 0x73 -- 's'
def STRING_L : Nat := 0x53 -- 'S'
def HIDEF_S : Nat := 0x68  -- 'h'
def HIDEF_L : Nat := 0x48  -- 'H'
def ARRAY_S : Nat := 0x61  -- 'a'
def OBJECT_S : Nat := 0x6F -- 'o'
def ARRAY_L : Nat := 0x41  -- 'A'
def OBJECT_L : Nat := 0x4F -- 'O'

def CONSTANTS : List Nat := [NOOP, EOS, NULL, FALSE, TRUE]
def NUMBERS : List Nat := [INT8, INT16, INT32, INT64, FLOAT, DOUBLE]
def STRINGS : List Nat := [STRING_S, STRING_L, HIDEF_S, HIDEF_L]
def SHORT_OBJ : List Nat := [STRING_S, HIDEF_S, ARRAY_S, OBJECT_S]
def LARGE_OBJ : List Nat := [STRING_L, HIDEF_L, ARRAY_L, OBJECT_L]
def STREAMS : List Nat := [ARRAY_S, OBJECT_S]
def OBJECT_KEYS : List Nat := [STRING_S, STRING_L]
def FORBIDDEN : List Nat := [NOOP, EOS]

/-- Python exceptions raised by the decoder. -/
inductive DErr where
  /-- Python `EarlyEndOfStreamError` with its message. -/
  | earlyEndOfStream (msg : String)
  /-- Python `MarkerError`; carries the offending byte that the message names. -/
  | markerError (b : Nat)
  /-- Python `ValueError` (bad object key). -/
  | valueError (msg : String)
  /-- Python `struct.error` from `unpack` on a buffer shorter than the format. -/
  | structError
  /-- Python `TypeError` (e.g. `ord` applied to an empty read). -/
  | typeError (msg : String)
  /-- Python `AssertionError` from `assert length < 255` on short string tags. -/
  | assertionError (msg : String)
  /-- Python `KeyError`: dispatch table has no handler for the tag. -/
  | keyError (tag : Nat)
  /-- Python `UnicodeDecodeError` from `value.decode('utf-8')` on bytes
  that are not valid UTF-8 (`decode_string` / `decode_hidef`). -/
  | unicodeDecodeError
  /-- Python `decimal.InvalidOperation` from `Decimal(text)` on text that
  does not parse as a decimal numeric string (`decode_hidef`). -/
  | invalidOperation
  /-- Artificial: the model's recursion fuel ran out (never happens on a
  real run once fuel exceeds the source length). -/
  | outOfFuel
  deriving Repr, DecidableEq

/-- The third component of the `next_tlv` result: already-decoded number,
raw payload bytes, or nothing. -/
inductive TLVVal where
  | noneV
  | intV (i : Int)
  /-- A float's raw big-endian payload bytes (4 or 8 of them). -/
  | floatV (raw : List Nat)
  | bytesV (bs : List Nat)
  deriving Repr, DecidableEq

/-- The `while 1: ... continue` loop at the head of `next_tlv`: with
`allow_noop` false, leading `N` bytes are discarded. -/
def dropNoops : List Nat → List Nat
  | [] => []
  | b :: rest => if b = NOOP then dropNoops rest else b :: rest

/-- Models `Draft8Decoder.next_tlv`: read one tag plus length/payload.
Returns `(tag, length, value, remaining source)`. -/
def next_tlv (allowNoop : Bool) (src : List Nat) :
    Except DErr (Nat × Option Nat × TLVVal × List Nat) := do
  let src := if allowNoop then src else dropNoops src
  match src with
  | [] => .error (.earlyEndOfStream "nothing to decode")
  | tag :: rest =>
    if NUMBERS.contains tag then
      if tag = INT8 then
        -- value = ord(self.read(1)); if value > 128: value -= 256
        match rest with
        | [] => .error (.typeError "ord() expected a character")
        | b :: rest =>
          let value : Int := if b > 128 then (b : Int) - 256 else (b : Int)
          .ok (tag, none, .intV value, rest)
      else if tag = INT16 then
        let (bs, rest) := readN 2 rest
        if bs.length ≠ 2 then .error .structError
        else .ok (tag, none, .intV (toSigned 16 (beNat bs)), rest)
      else if tag = INT32 then
        let (bs, rest) := readN 4 rest
        if bs.length ≠ 4 then .error .structError
        else .ok (tag, none, .intV (toSigned 32 (beNat bs)), rest)
      else if tag = INT64 then
        let (bs, rest) := readN 8 rest
        if bs.length ≠ 8 then .error .structError
        else .ok (tag, none, .intV (toSigned 64 (beNat bs)), rest)
      else if tag = FLOAT then
        let (bs, rest) := readN 4 rest
        if bs.length ≠ 4 then .error .structError
        else .ok (tag, none, .floatV bs, rest)
      else
        -- tag = DOUBLE (the final NUMBERS member)
        let (bs, rest) := readN 8 rest
        if bs.length ≠ 8 then .error .structError
        else .ok (tag, none, .floatV bs, rest)
    else if SHORT_OBJ.contains tag then
      match rest with
      | [] => .error (.typeError "ord() expected a character")
      | lenByte :: rest =>
        if STRINGS.contains tag then
          if lenByte ≥ 255 then .error (.assertionError "invalid string length")
          else
            let (bs, rest) := readN lenByte rest
            .ok (tag, some lenByte, .bytesV bs, rest)
        else .ok (tag, some lenByte, .noneV, rest)
    else if LARGE_OBJ.contains tag then
      let (bs, rest) := readN 4 rest
      if bs.length ≠ 4 then .error .structError
      else
        let length := beNat bs
        if STRINGS.contains tag then
          let (pl, rest) := readN length rest
          .ok (tag, some length, .bytesV pl, rest)
        else .ok (tag, some length, .noneV, rest)
    else if CONSTANTS.contains tag then
      .ok (tag, none, .noneV, rest)
    else
      .error (.markerError tag)

/-- A UTF-8 continuation byte (`0x80..0xBF`). -/
def isContByte (c : Nat) : Bool := decide (0x80 ≤ c) && decide (c < 0xC0)

/-- The byte strings accepted by Python 2.7's strict `utf-8` codec
(`value.decode('utf-8')`): standard UTF-8 with C0/C1 and F5..FF start
bytes rejected, overlong 3/4-byte forms rejected (`E0` needs a first
continuation `≥ 0xA0`, `F0` needs `≥ 0x90`), sequences above U+10FFFF
rejected (`F4` caps its first continuation at `< 0x90`) — but, unlike
Python 3, surrogate code points (`ED A0..BF ..`) are accepted. A
truncated trailing sequence is invalid ("unexpected end of data"). -/
def utf8Valid : List Nat → Bool
  | [] => true
  | b :: rest =>
    if b < 0x80 then utf8Valid rest
    else if b < 0xC2 then false
    else if b < 0xE0 then
      match rest with
      | c1 :: rest2 => isContByte c1 && utf8Valid rest2
      | [] => false
    else if b < 0xF0 then
      match rest with
      | c1 :: c2 :: rest2 =>
        isContByte c1 && isContByte c2 &&
          (b != 0xE0 || decide (0xA0 ≤ c1)) && utf8Valid rest2
      | _ => false
    else if b < 0xF5 then
      match rest with
      | c1 :: c2 :: c3 :: rest2 =>
        isContByte c1 && isContByte c2 && isContByte c3 &&
          (b != 0xF0 || decide (0x90 ≤ c1)) &&
          (b != 0xF4 || decide (c1 < 0x90)) && utf8Valid rest2
      | _ => false
    else false

/-- An ASCII decimal digit byte. -/
def isDigitByte (c : Nat) : Bool := decide (0x30 ≤ c) && decide (c ≤ 0x39)

/-- Lower-case an ASCII letter byte (the decimal parser is
case-insensitive). -/
def toLowerByte (c : Nat) : Nat :=
  if 0x41 ≤ c ∧ c ≤ 0x5A then c + 0x20 else c

/-- An ASCII whitespace byte, as stripped by `value.strip()` before the
decimal parse (non-ASCII unicode spaces are not modelled; no claim
exercises them). -/
def isSpaceByte (c : Nat) : Bool :=
  c == 0x20 || c == 0x09 || c == 0x0A || c == 0x0B || c == 0x0C || c == 0x0D

/-- Strip leading and trailing whitespace. -/
def stripWS (s : List Nat) : List Nat :=
  ((s.dropWhile isSpaceByte).reverse.dropWhile isSpaceByte).reverse

/-- At least one digit, and nothing else. -/
def decimalDigitsNonempty (s : List Nat) : Bool :=
  !s.isEmpty && s.all isDigitByte

/-- The optional exponent tail of a decimal numeric string:
empty, or `E`/`e` followed by an optional sign and one or more digits. -/
def decimalExponentPart : List Nat → Bool
  | [] => true
  | c :: t =>
    toLowerByte c == 0x65 &&
      (match t with
       | s2 :: t2 =>
         if s2 = 0x2B ∨ s2 = 0x2D then decimalDigitsNonempty t2
         else decimalDigitsNonempty t
       | [] => false)

/-- The number alternative of the decimal parser's regex:
`(?=\d|\.\d) \d* (\.\d*)? (E[-+]?\d+)?` — digits with an optional
fraction and exponent, requiring at least one digit overall. -/
def decimalNumberPart (s : List Nat) : Bool :=
  let ip := s.takeWhile isDigitByte
  let r1 := s.dropWhile isDigitByte
  match r1 with
  | 0x2E :: t =>
    let fp := t.takeWhile isDigitByte
    let r2 := t.dropWhile isDigitByte
    (!ip.isEmpty || !fp.isEmpty) && decimalExponentPart r2
  | _ => !ip.isEmpty && decimalExponentPart r1

/-- The infinity alternative: `Inf` or `Infinity`, case-insensitive. -/
def decimalInfinityPart (s : List Nat) : Bool :=
  let l := s.map toLowerByte
  l == [0x69, 0x6E, 0x66] || l == [0x69, 0x6E, 0x66, 0x69, 0x6E, 0x69, 0x74, 0x79]

/-- The NaN alternative: optional `s`, then `NaN`, then optional
diagnostic digits, case-insensitive. -/
def decimalNanPart (s : List Nat) : Bool :=
  let l := s.map toLowerByte
  match l with
  | 0x73 :: 0x6E :: 0x61 :: 0x6E :: d => d.all isDigitByte
  | 0x6E :: 0x61 :: 0x6E :: d => d.all isDigitByte
  | _ => false

/-- The body after the optional leading sign. -/
def decimalNumericValue (s : List Nat) : Bool :=
  decimalNumberPart s || decimalInfinityPart s || decimalNanPart s

/-- Models the acceptance of `Decimal(text)` in Python 2.7's `decimal`
module (`_parser` regex over the stripped text: optional sign, then a
number, an infinity, or a NaN). The ASCII fragment only: the CPython
regex under `re.UNICODE` also accepts non-ASCII unicode digits, which no
claim exercises. -/
def decimalParsable (utf8 : List Nat) : Bool :=
  let s := stripWS utf8
  match s with
  | c :: t =>
    if c = 0x2B ∨ c = 0x2D then decimalNumericValue t else decimalNumericValue s
  | [] => false

/-- Python values the codec produces/consumes, one constructor per exact
runtime type the dispatch tables key on (`type(obj)` dispatch). `str` and
`decimal` carry UTF-8 bytes; `float` carries raw wire bytes.
`streamArray`/`streamObject` are the lazy generator handles returned by
`decode_array_stream`/`decode_object_stream`; in this deterministic model a
generator is identified by the source position it will read from, which is
exactly the remaining-source component returned alongside it.
`foreign` stands for a value whose exact runtime type is in no dispatch
table (for instance an instance of a strict subclass of `list`). -/
inductive PyVal where
  | noop
  | null
  | bool (b : Bool)
  | int (i : Int)
  | float (raw : List Nat)
  | str (utf8 : List Nat)
  | decimal (utf8 : List Nat)
  | list (items : List PyVal)
  | dict (pairs : List (PyVal × PyVal))
  | tuple (fst snd : PyVal)
  | streamArray
  | streamObject
  | foreign
  deriving Repr

mutual
/-- Structural equality of Python values (`==` as used by dict keys). -/
def pvBeq : PyVal → PyVal → Bool
  | .noop, .noop => true
  | .null, .null => true
  | .bool a, .bool b => a = b
  | .int a, .int b => a = b
  | .float a, .float b => a = b
  | .str a, .str b => a = b
  | .decimal a, .decimal b => a = b
  | .list a, .list b => pvBeqList a b
  | .dict a, .dict b => pvBeqPairs a b
  | .tuple a b, .tuple c d => pvBeq a c && pvBeq b d
  | .streamArray, .streamArray => true
  | .streamObject, .streamObject => true
  | .foreign, .foreign => true
  | _, _ => false
termination_by structural x => x

def pvBeqList : List PyVal → List PyVal → Bool
  | [], [] => true
  | a :: as, b :: bs => pvBeq a b && pvBeqList as bs
  | _, _ => false
termination_by structural x => x

def pvBeqPairs : List (PyVal × PyVal) → List (PyVal × PyVal) → Bool
  | [], [] => true
  | (k, v) :: as, (k2, v2) :: bs => pvBeq k k2 && pvBeq v v2 && pvBeqPairs as bs
  | _, _ => false
termination_by structural x => x
end

/-- Python truthiness (`if key:`). Only ever consulted on the object-stream
pending key, which is always a text value; the other cases follow Python's
rules for completeness (a float is falsy exactly when its payload encodes
±0.0, i.e. all bits beyond the sign bit are clear). -/
def pyTruthy : PyVal → Bool
  | .noop => true
  | .null => false
  | .bool b => b
  | .int i => i ≠ 0
  | .float raw =>
      !(decide (raw.head? ∈ [some 0x00, some 0x80]) && raw.tail.all (· = 0))
  | .str s => !s.isEmpty
  | .decimal _ => true
  | .list xs => !xs.isEmpty
  | .dict ps => !ps.isEmpty
  | .tuple _ _ => true
  | .streamArray => true
  | .streamObject => true
  | .foreign => true

/-- Models `res[key] = value` on a Python dict: overwrite the value of an equal key
in place, else append the new binding. -/
def dictSet (d : List (PyVal × PyVal)) (k v : PyVal) : List (PyVal × PyVal) :=
  if d.any (fun p => pvBeq p.1 k) then
    d.map (fun p => if pvBeq p.1 k then (p.1, v) else p)
  else d ++ [(k, v)]

mutual
/-- A value contains no lazy generator handle anywhere inside it
(it has been fully materialized). -/
def materialized : PyVal → Bool
  | .streamArray => false
  | .streamObject => false
  | .list xs => materializedList xs
  | .dict ps => materializedPairs ps
  | .tuple a b => materialized a && materialized b
  | _ => true
termination_by structural x => x

def materializedList : List PyVal → Bool
  | [] => true
  | x :: xs => materialized x && materializedList xs
termination_by structural x => x

def materializedPairs : List (PyVal × PyVal) → Bool
  | [] => true
  | (k, v) :: ps => materialized k && materialized v && materializedPairs ps
termination_by structural x => x
end

/-- Discriminator: is this value a Python dict? -/
def PyVal.isDict : PyVal → Bool
  | .dict _ => true
  | _ => false

/-- Truthiness of the object-stream pending-key slot (`if key:` on a slot
that is `None` or holds a value). -/
def optTruthy : Option PyVal → Bool
  | none => false
  | some v => pyTruthy v

mutual
/-- Models `self.dispatch[tag](self, tag, length, value)`: the decode dispatch
table applied to one TLV unit. For an unsized (`length == 255`) short
array/object tag it returns the lazy generator handle without consuming
the source, exactly as `decode_array`/`decode_object` do. -/
def decodeTLV (a : Bool) : Nat → Nat → Option Nat → TLVVal → List Nat →
    Except DErr (PyVal × List Nat)
  | 0, _, _, _, _ => .error .outOfFuel
  | fuel + 1, tag, length, value, src =>
    if tag = NOOP then .ok (.noop, src)
    else if tag = NULL then .ok (.null, src)
    else if tag = FALSE then .ok (.bool false, src)
    else if tag = TRUE then .ok (.bool true, src)
    else if tag = INT8 ∨ tag = INT16 ∨ tag = INT32 ∨ tag = INT64 then
      match value with
      | .intV i => .ok (.int i, src)
      -- unreachable: next_tlv always supplies a number for these tags
      | _ => .error (.typeError "integer tag without numeric payload")
    else if tag = FLOAT ∨ tag = DOUBLE then
      match value with
      | .floatV raw => .ok (.float raw, src)
      | _ => .error (.typeError "float tag without payload")
    else if tag = STRING_S ∨ tag = STRING_L then
      match value with
      | .bytesV bs =>
        -- decode_string: value.decode('utf-8')
        if utf8Valid bs then .ok (.str bs, src) else .error .unicodeDecodeError
      | _ => .error (.typeError "string tag without payload")
    else if tag = HIDEF_S ∨ tag = HIDEF_L then
      match value with
      | .bytesV bs =>
        -- decode_hidef: Decimal(value.decode('utf-8'))
        if utf8Valid bs then
          if decimalParsable bs then .ok (.decimal bs, src)
          else .error .invalidOperation
        else .error .unicodeDecodeError
      | _ => .error (.typeError "hidef tag without payload")
    else if tag = ARRAY_S ∨ tag = ARRAY_L then
      match length with
      | some n => decode_array a fuel tag n src
      | none => .error (.typeError "range() argument is None")
    else if tag = OBJECT_S ∨ tag = OBJECT_L then
      match length with
      | some n => decode_object a fuel tag n src
      | none => .error (.typeError "range() argument is None")
    -- An unregistered tag raises KeyError on the dispatch dict lookup.
    else .error (.keyError tag)
termination_by structural fuel => fuel

/-- Models `Draft8Decoder.decode_array`: unsized short array gives the stream
generator, otherwise read exactly `length` elements. -/
def decode_array (a : Bool) : Nat → Nat → Nat → List Nat →
    Except DErr (PyVal × List Nat)
  | 0, _, _, _ => .error .outOfFuel
  | fuel + 1, tag, length, src =>
    if tag = ARRAY_S ∧ length = 255 then .ok (.streamArray, src)
    else decodeArrayItems a fuel length [] src
termination_by structural fuel => fuel

/-- The `for _ in range(length)` loop of `decode_array`. -/
def decodeArrayItems (a : Bool) : Nat → Nat → List PyVal → List Nat →
    Except DErr (PyVal × List Nat)
  | 0, _, _, _ => .error .outOfFuel
  | _ + 1, 0, acc, src => .ok (.list acc, src)
  | fuel + 1, n + 1, acc, src => do
    let (tag, len?, val, src) ← next_tlv a src
    if FORBIDDEN.contains tag then .error (.markerError tag)
    else do
      let (item, src) ← decodeTLV a fuel tag len? val src
      let (item, src) ←
        if STREAMS.contains tag && len? == some 255 then pyListOf a fuel item src
        else pure (item, src)
      decodeArrayItems a fuel n (acc ++ [item]) src
termination_by structural fuel => fuel

/-- Models `Draft8Decoder.decode_object`: unsized short object gives the stream
generator, otherwise read `length * 2` alternating key/value units. -/
def decode_object (a : Bool) : Nat → Nat → Nat → List Nat →
    Except DErr (PyVal × List Nat)
  | 0, _, _, _ => .error .outOfFuel
  | fuel + 1, tag, length, src =>
    if tag = OBJECT_S ∧ length = 255 then .ok (.streamObject, src)
    else decodeObjectItems a fuel (length * 2) none [] src
termination_by structural fuel => fuel

/-- The `for _ in range(length * 2)` loop of `decode_object`, carrying the
pending key and the dict built so far. -/
def decodeObjectItems (a : Bool) : Nat → Nat → Option PyVal →
    List (PyVal × PyVal) → List Nat → Except DErr (PyVal × List Nat)
  | 0, _, _, _, _ => .error .outOfFuel
  | _ + 1, 0, _, res, src => .ok (.dict res, src)
  | fuel + 1, n + 1, key, res, src => do
    let (tag, len?, val, src) ← next_tlv a src
    if FORBIDDEN.contains tag then .error (.markerError tag)
    else if key.isNone && !OBJECT_KEYS.contains tag then
      .error (.valueError "key should be string")
    else do
      let (value, src) ← decodeTLV a fuel tag len? val src
      match key with
      | none => decodeObjectItems a fuel n (some value) res src
      | some k => do
        let (value, src) ←
          if STREAMS.contains tag && len? == some 255 then pyListOf a fuel value src
          else pure (value, src)
        decodeObjectItems a fuel n none (dictSet res k value) src
termination_by structural fuel => fuel

/-- Python `list(item)` applied where the decoder materializes: runs a lazy
generator handle to completion from the current source position; copies a
list; lists a dict's keys; anything else is not iterable here. -/
def pyListOf (a : Bool) : Nat → PyVal → List Nat → Except DErr (PyVal × List Nat)
  | 0, _, _ => .error .outOfFuel
  | fuel + 1, item, src =>
    match item with
    | .streamArray => do
      let (items, src) ← arrayStreamRun a fuel src
      .ok (.list items, src)
    | .streamObject => do
      let (pairs, src) ← objectStreamRun a fuel none src
      .ok (.list (pairs.map fun p => PyVal.tuple p.1 p.2), src)
    | .list xs => .ok (.list xs, src)
    | .dict ps => .ok (.list (ps.map Prod.fst), src)
    | _ => .error (.typeError "object is not iterable")
termination_by structural fuel => fuel

/-- Models `decode_array_stream` run to exhaustion (what `list(...)` of the
generator computes): elements until an EOS unit. -/
def arrayStreamRun (a : Bool) : Nat → List Nat →
    Except DErr (List PyVal × List Nat)
  | 0, _ => .error .outOfFuel
  | fuel + 1, src => do
    let (tag, len?, val, src) ← next_tlv a src
    if tag = EOS then .ok ([], src)
    else do
      let (item, src) ← decodeTLV a fuel tag len? val src
      let (item, src) ←
        if STREAMS.contains tag && len? == some 255 then pyListOf a fuel item src
        else pure (item, src)
      let (rest, src) ← arrayStreamRun a fuel src
      .ok (item :: rest, src)
termination_by structural fuel => fuel

/-- Models `decode_object_stream` run to exhaustion, carrying the pending-key
slot (initially `none`). Mirrors the source branch for branch, including
the truthiness tests on `key` and the `tag in STREAMS` test that lacks a
`length == 255` guard. -/
def objectStreamRun (a : Bool) : Nat → Option PyVal → List Nat →
    Except DErr (List (PyVal × PyVal) × List Nat)
  | 0, _, _ => .error .outOfFuel
  | fuel + 1, key, src => do
    let (tag, len?, val, src) ← next_tlv a src
    if tag = NOOP ∧ key.isNone then do
      let (rest, src) ← objectStreamRun a fuel none src
      .ok ((PyVal.noop, PyVal.noop) :: rest, src)
    else if tag = NOOP ∧ optTruthy key then
      objectStreamRun a fuel key src
    else if tag = EOS then
      if optTruthy key then .error (.earlyEndOfStream "value missed for key")
      else .ok ([], src)
    else if key.isNone ∧ ¬ OBJECT_KEYS.contains tag then
      .error (.valueError "key should be string")
    else do
      let (value, src) ← decodeTLV a fuel tag len? val src
      match key with
      | none => objectStreamRun a fuel (some value) src
      | some k =>
        if STREAMS.contains tag then do
          let (value, src) ← pyListOf a fuel value src
          let (rest, src) ← objectStreamRun a fuel none src
          .ok ((k, value) :: rest, src)
        else do
          let (rest, src) ← objectStreamRun a fuel none src
          .ok ((k, value) :: rest, src)
termination_by structural fuel => fuel
end

/-- Models `Draft8Decoder.decode_next`: one TLV unit read and dispatched. -/
def decode_next (a : Bool) (fuel : Nat) (src : List Nat) :
    Except DErr (PyVal × List Nat) := do
  let (tag, len?, val, src) ← next_tlv a src
  decodeTLV a fuel tag len? val src

/-- Exceptions raised by the encoder. -/
inductive EncErr where
  /-- `EncodeError` (no dispatch rule; the un-overridden `default` raises). -/
  | encodeError (msg : String)
  /-- `struct.error`: a length does not fit the pack format. -/
  | structError
  /-- Artificial: behavior outside this model (float range tests on IEEE
  values, generator inputs that consume live iterators). No claim depends
  on these paths. -/
  | notModeled (what : String)
  deriving Repr, DecidableEq

/-- ASCII decimal digits of a natural number (`str(n)` as UTF-8 bytes). -/
def natDecimalBytes (n : Nat) : List Nat :=
  (Nat.toDigits 10 n).map Char.toNat

/-- Computes `unicode(Decimal(i)).encode('utf-8')` for an integer `i`. -/
def intDecimalBytes (i : Int) : List Nat :=
  if i < 0 then 0x2D :: natDecimalBytes i.natAbs else natDecimalBytes i.natAbs

/-- Models `Draft8Encoder.encode_bool`: `[FALSE, TRUE][obj]`. -/
def encode_bool (b : Bool) : List Nat :=
  [if b then TRUE else FALSE]

/-- Models `Draft8Encoder.encode_decimal` on the decimal's UTF-8 text. -/
def encode_decimal (utf8 : List Nat) : Except EncErr (List Nat) :=
  let length := utf8.length
  if length < 255 then .ok (HIDEF_S :: length :: utf8)
  else if length < 2 ^ 31 then .ok (HIDEF_L :: natToBE 4 length ++ utf8)
  else .error .structError

/-- Models `Draft8Encoder.encode_int`: cascading signed-range tests, smallest
width first; beyond 64 bits, fall back to the decimal text encoding. -/
def encode_int (i : Int) : Except EncErr (List Nat) :=
  if -(2 ^ 7) ≤ i ∧ i ≤ 2 ^ 7 - 1 then .ok (INT8 :: [(i % 256).toNat])
  else if -(2 ^ 15) ≤ i ∧ i ≤ 2 ^ 15 - 1 then .ok (INT16 :: packBE 2 i)
  else if -(2 ^ 31) ≤ i ∧ i ≤ 2 ^ 31 - 1 then .ok (INT32 :: packBE 4 i)
  else if -(2 ^ 63) ≤ i ∧ i ≤ 2 ^ 63 - 1 then .ok (INT64 :: packBE 8 i)
  else encode_decimal (intDecimalBytes i)

/-- Models `Draft8Encoder.encode_str` on the text's UTF-8 bytes. Note the long
branch of the source emits `STRING_L + INT32 + pack('>i', length) + obj`,
i.e. a stray `INT32` marker byte between the long tag and the 4-byte
length field. -/
def encode_str (utf8 : List Nat) : Except EncErr (List Nat) :=
  let length := utf8.length
  if length < 255 then .ok (STRING_S :: length :: utf8)
  else if length < 2 ^ 31 then .ok (STRING_L :: INT32 :: natToBE 4 length ++ utf8)
  else .error .structError

/-- The `marker + size` header of `Draft8Encoder.encode_sequence`. -/
def seqHeader (length : Nat) : Except EncErr (List Nat) :=
  if length < 255 then .ok [ARRAY_S, length]
  else if length < 2 ^ 32 then .ok (ARRAY_L :: natToBE 4 length)
  else .error .structError

/-- The `marker + size` header of `Draft8Encoder.encode_dict`. -/
def dictHeader (length : Nat) : Except EncErr (List Nat) :=
  if length < 255 then .ok [OBJECT_S, length]
  else if length < 2 ^ 32 then .ok (OBJECT_L :: natToBE 4 length)
  else .error .structError

mutual
/-- Models `Draft8Encoder.encode_next`: dispatch on the input's exact runtime type
(`type(obj)`), so a `bool` always hits `encode_bool` (never `encode_int`,
although `bool` subclasses `int` in Python), and a value whose exact type
has no table entry — such as an instance of a strict subclass of `list`,
here `foreign` — falls to `default`, which without a configured transform
raises `EncodeError`. -/
def encodeNext : PyVal → Except EncErr (List Nat)
  | .noop => .ok [NOOP]
  | .null => .ok [NULL]
  | .bool b => .ok (encode_bool b)
  | .int i => encode_int i
  | .float _ => .error (.notModeled "encode_float performs IEEE-754 range tests")
  | .str s => encode_str s
  | .decimal s => encode_decimal s
  | .list xs => do
    let header ← seqHeader xs.length
    let body ← encodeSeq xs
    .ok (header ++ body)
  | .tuple a b => do
    let header ← seqHeader 2
    let x ← encodeNext a
    let y ← encodeNext b
    .ok (header ++ x ++ y)
  | .dict ps => do
    let header ← dictHeader ps.length
    let body ← encodePairs ps
    .ok (header ++ body)
  | .streamArray => .error (.notModeled "encode_generator consumes a live iterator")
  | .streamObject => .error (.notModeled "encode_generator consumes a live iterator")
  | .foreign => .error (.encodeError "unable to encode")
termination_by structural v => v

/-- The element loop of `encode_sequence`. -/
def encodeSeq : List PyVal → Except EncErr (List Nat)
  | [] => .ok []
  | x :: xs => do
    let b ← encodeNext x
    let r ← encodeSeq xs
    .ok (b ++ r)
termination_by structural v => v

/-- The `for key, value in obj.items()` loop of `encode_dict`. -/
def encodePairs : List (PyVal × PyVal) → Except EncErr (List Nat)
  | [] => .ok []
  | (k, v) :: ps => do
    let kb ← encodeNext k
    let vb ← encodeNext v
    let r ← encodePairs ps
    .ok (kb ++ vb ++ r)
termination_by structural v => v
end

/-! ## Helper lemmas -/

@[simp]
theorem exbind_ok {ε α β : Type} (x : α) (f : α → Except ε β) :
    (Except.ok x >>= f) = f x := rfl

@[simp]
theorem exbind_error {ε α β : Type} (e : ε) (f : α → Except ε β) :
    ((Except.error e : Except ε α) >>= f) = .error e := rfl

@[simp]
theorem expure_bind {ε α β : Type} (x : α) (f : α → Except ε β) :
    ((pure x : Except ε α) >>= f) = f x := rfl

theorem materializedList_append (xs ys : List PyVal) :
    materializedList (xs ++ ys) = (materializedList xs && materializedList ys) := by
  induction xs with
  | nil => simp [materializedList]
  | cons x xs ih => simp [materializedList, ih, Bool.and_assoc]

theorem materializedPairs_append (xs ys : List (PyVal × PyVal)) :
    materializedPairs (xs ++ ys) = (materializedPairs xs && materializedPairs ys) := by
  induction xs with
  | nil => simp [materializedPairs]
  | cons p ps ih =>
    obtain ⟨k, v⟩ := p
    simp [materializedPairs, ih, Bool.and_assoc]

theorem materializedList_map_fst (ps : List (PyVal × PyVal))
    (h : materializedPairs ps = true) :
    materializedList (ps.map Prod.fst) = true := by
  induction ps with
  | nil => rfl
  | cons p ps ih =>
    obtain ⟨k, v⟩ := p
    simp only [materializedPairs, Bool.and_eq_true] at h
    simp [materializedList, h.1.1, ih h.2]

theorem materializedList_map_tuple (ps : List (PyVal × PyVal))
    (h : materializedPairs ps = true) :
    materializedList (ps.map fun p => PyVal.tuple p.1 p.2) = true := by
  induction ps with
  | nil => rfl
  | cons p ps ih =>
    obtain ⟨k, v⟩ := p
    simp only [materializedPairs, Bool.and_eq_true] at h
    simp [materializedList, materialized, h.1.1, h.1.2, ih h.2]

theorem materializedPairs_overwrite (k v : PyVal) (hv : materialized v = true) :
    ∀ d : List (PyVal × PyVal), materializedPairs d = true →
      materializedPairs (d.map fun p => if pvBeq p.1 k then (p.1, v) else p) = true := by
  intro d
  induction d with
  | nil => intro _; rfl
  | cons p ps ih =>
    intro h
    obtain ⟨k2, v2⟩ := p
    simp only [materializedPairs, Bool.and_eq_true] at h
    simp only [List.map]
    by_cases hb : pvBeq (k2, v2).1 k = true
    · rw [if_pos hb]
      simp only [materializedPairs, Bool.and_eq_true]
      exact ⟨⟨h.1.1, hv⟩, ih h.2⟩
    · rw [if_neg hb]
      simp only [materializedPairs, Bool.and_eq_true]
      exact ⟨h.1, ih h.2⟩

theorem materializedPairs_dictSet (d : List (PyVal × PyVal)) (k v : PyVal)
    (hd : materializedPairs d = true) (hk : materialized k = true)
    (hv : materialized v = true) :
    materializedPairs (dictSet d k v) = true := by
  rw [dictSet]
  split
  · exact materializedPairs_overwrite k v hv d hd
  · rw [materializedPairs_append]
    simp [hd, materializedPairs, hk, hv]

/-! ## Claim theorems -/

/-- C1: the spec claims `decode(encode(v)) == v` for every value covered by
a non-streaming encode rule. The code violates this at the integer `-128`:
`encode_int` emits the Int8 unit `0x42 0x80`, but `next_tlv`'s Int8 branch
tests `value > 128` instead of `value >= 128`, so byte `0x80` decodes to
`+128` (the commented-out `unpack('>b')` in the source shows the intended
two's-complement reading). -/
theorem C1_roundtrip_fails_at_neg128 :
    encodeNext (PyVal.int (-128)) = .ok [0x42, 0x80]
    ∧ decode_next false 32 [0x42, 0x80] = .ok (PyVal.int 128, []) :=
  ⟨rfl, rfl⟩

set_option maxRecDepth 4000 in
/-- C2: text of 254 bytes uses the short tag with a 1-byte length, but at
255 bytes `encode_str` emits `STRING_L + INT32 + pack('>i', length)`: a
stray `INT32` marker byte (0x49) sits between the long tag and the 4-byte
big-endian length field, while the decoder reads a long string as the tag
immediately followed by the length (third conjunct). -/
theorem C2_long_text_stray_marker_byte :
    encode_str (List.replicate 254 97) = .ok (0x73 :: 254 :: List.replicate 254 97)
    ∧ encode_str (List.replicate 255 97) =
        .ok ([0x53, 0x49, 0x00, 0x00, 0x00, 0xFF] ++ List.replicate 255 97)
    ∧ decode_next false 32 [0x53, 0x00, 0x00, 0x00, 0x02, 97, 98] =
        .ok (PyVal.str [97, 98], []) :=
  ⟨rfl, rfl, rfl⟩

/-- C3: the Int8 payload is read with `if value > 128: value -= 256`, so
byte `0x80` (128) stays `+128` instead of decoding to `-128` as
two's-complement interpretation requires; bytes `0x81` and above and
`0x7F` and below behave as the claim states. -/
theorem C3_int8_byte_0x80_not_twos_complement :
    decode_next false 32 [0x42, 0x80] = .ok (PyVal.int 128, [])
    ∧ decode_next false 32 [0x42, 0x81] = .ok (PyVal.int (-127), [])
    ∧ decode_next false 32 [0x42, 0x7F] = .ok (PyVal.int 127, []) :=
  ⟨rfl, rfl, rfl⟩

/-- C4: integer encoding picks the smallest of Int8/Int16/Int32/Int64 whose
signed range contains the value, and every integer outside the signed
64-bit range is re-encoded as an arbitrary-precision decimal. -/
theorem C4_int_width_minimality (i : Int) :
    (-(2 ^ 7) ≤ i ∧ i ≤ 2 ^ 7 - 1 →
      encodeNext (.int i) = .ok (INT8 :: [(i % 256).toNat]))
    ∧ (¬(-(2 ^ 7) ≤ i ∧ i ≤ 2 ^ 7 - 1) → -(2 ^ 15) ≤ i ∧ i ≤ 2 ^ 15 - 1 →
      encodeNext (.int i) = .ok (INT16 :: packBE 2 i))
    ∧ (¬(-(2 ^ 15) ≤ i ∧ i ≤ 2 ^ 15 - 1) → -(2 ^ 31) ≤ i ∧ i ≤ 2 ^ 31 - 1 →
      encodeNext (.int i) = .ok (INT32 :: packBE 4 i))
    ∧ (¬(-(2 ^ 31) ≤ i ∧ i ≤ 2 ^ 31 - 1) → -(2 ^ 63) ≤ i ∧ i ≤ 2 ^ 63 - 1 →
      encodeNext (.int i) = .ok (INT64 :: packBE 8 i))
    ∧ (¬(-(2 ^ 63) ≤ i ∧ i ≤ 2 ^ 63 - 1) →
      encodeNext (.int i) = encode_decimal (intDecimalBytes i)) := by
  refine ⟨fun h1 => ?_, fun h1 h2 => ?_, fun h2 h3 => ?_, fun h3 h4 => ?_, fun h4 => ?_⟩
  · show encode_int i = _
    rw [encode_int, if_pos h1]
  · show encode_int i = _
    rw [encode_int, if_neg h1, if_pos h2]
  · show encode_int i = _
    have h1 : ¬(-(2 ^ 7) ≤ i ∧ i ≤ 2 ^ 7 - 1) := by omega
    rw [encode_int, if_neg h1, if_neg h2, if_pos h3]
  · show encode_int i = _
    have h1 : ¬(-(2 ^ 7) ≤ i ∧ i ≤ 2 ^ 7 - 1) := by omega
    have h2 : ¬(-(2 ^ 15) ≤ i ∧ i ≤ 2 ^ 15 - 1) := by omega
    rw [encode_int, if_neg h1, if_neg h2, if_neg h3, if_pos h4]
  · show encode_int i = _
    have h1 : ¬(-(2 ^ 7) ≤ i ∧ i ≤ 2 ^ 7 - 1) := by omega
    have h2 : ¬(-(2 ^ 15) ≤ i ∧ i ≤ 2 ^ 15 - 1) := by omega
    have h3 : ¬(-(2 ^ 31) ≤ i ∧ i ≤ 2 ^ 31 - 1) := by omega
    rw [encode_int, if_neg h1, if_neg h2, if_neg h3, if_neg h4]

/-- Witness for C4: the boundary value 128 leaves Int8 and lands in Int16
with payload bytes `0x00 0x80`. -/
theorem C4_int_width_minimality_witness :
    encodeNext (.int 128) = .ok (INT16 :: packBE 2 128)
    ∧ INT16 :: packBE 2 128 = [0x69, 0x00, 0x80] :=
  ⟨(C4_int_width_minimality 128).2.1 (by decide) (by decide), rfl⟩

/-- C5 counterexample: bytes `a 01 o FF s 01 'k' B 05 E` are a sized array
of length 1 holding an unsized object. The nested stream object is
materialized as a list of (key, value) pairs — `list(object_stream())`,
per the decoder's own docstring note (3) — and not as a key-value
mapping, contradicting the claim's "sized equivalent ... a key-value
mapping for a StreamObject". -/
theorem C5_nested_stream_object_not_a_mapping :
    decode_next false 32 [0x61, 1, 0x6F, 0xFF, 0x73, 1, 107, 0x42, 5, 0x45]
      = .ok (.list [.list [.tuple (.str [107]) (.int 5)]], [])
    ∧ PyVal.isDict (PyVal.list [PyVal.tuple (PyVal.str [107]) (PyVal.int 5)]) = false :=
  ⟨rfl, rfl⟩

set_option maxHeartbeats 2000000 in
/-- C5 amended: any unsized Array/Object nested inside any container
(sized array or object, array stream, object stream) is run to exhaustion
and materialized before insertion — to a fully materialized ordered
sequence for a StreamArray and a fully materialized sequence of
(key, value) pairs (not a key-value mapping) for a StreamObject — so no
decoded container ever contains a lazy generator handle; only the
top-level dispatch (`decodeTLV` on an unsized short array/object unit)
may return one. The last conjunct is the spec's own instance: a sized
array of length 1 holding an unsized array decodes to a fully
materialized nested list. -/
theorem C5_amended_nested_streams_materialized (a : Bool) :
    (∀ fuel : Nat,
      (∀ tag len? val src v rest,
        decodeTLV a fuel tag len? val src = .ok (v, rest) →
          (v = .streamArray ∧ tag = ARRAY_S ∧ len? = some 255)
          ∨ (v = .streamObject ∧ tag = OBJECT_S ∧ len? = some 255)
          ∨ materialized v = true)
      ∧ (∀ tag n src v rest,
        decode_array a fuel tag n src = .ok (v, rest) →
          (v = .streamArray ∧ tag = ARRAY_S ∧ n = 255) ∨ materialized v = true)
      ∧ (∀ n acc src v rest,
        decodeArrayItems a fuel n acc src = .ok (v, rest) →
          materializedList acc = true → materialized v = true)
      ∧ (∀ tag n src v rest,
        decode_object a fuel tag n src = .ok (v, rest) →
          (v = .streamObject ∧ tag = OBJECT_S ∧ n = 255) ∨ materialized v = true)
      ∧ (∀ n key res src v rest,
        decodeObjectItems a fuel n key res src = .ok (v, rest) →
          (∀ k, key = some k → materialized k = true) →
          materializedPairs res = true → materialized v = true)
      ∧ (∀ item src v rest,
        pyListOf a fuel item src = .ok (v, rest) →
          (item = .streamArray ∨ item = .streamObject ∨ materialized item = true) →
          materialized v = true)
      ∧ (∀ src items rest,
        arrayStreamRun a fuel src = .ok (items, rest) →
          materializedList items = true)
      ∧ (∀ key src pairs rest,
        objectStreamRun a fuel key src = .ok (pairs, rest) →
          (∀ k, key = some k → materialized k = true) →
          materializedPairs pairs = true))
    ∧ decode_next false 32 [0x61, 1, 0x61, 0xFF, 0x42, 1, 0x42, 2, 0x45]
        = .ok (.list [.list [.int 1, .int 2]], []) := by
  refine ⟨?_, rfl⟩
  intro fuel
  induction fuel with
  | zero =>
    exact ⟨fun _ _ _ _ _ _ h => Except.noConfusion h,
           fun _ _ _ _ _ h => Except.noConfusion h,
           fun _ _ _ _ _ h _ => Except.noConfusion h,
           fun _ _ _ _ _ h => Except.noConfusion h,
           fun _ _ _ _ _ _ h _ _ => Except.noConfusion h,
           fun _ _ _ _ h _ => Except.noConfusion h,
           fun _ _ _ h => Except.noConfusion h,
           fun _ _ _ _ h _ => Except.noConfusion h⟩
  | succ fuel ih =>
    obtain ⟨ihT, ihA, ihAI, ihO, ihOI, ihL, ihAS, ihOS⟩ := ih
    have ihT3 : ∀ tag len? val src v rest,
        decodeTLV a fuel tag len? val src = .ok (v, rest) →
          (v = .streamArray ∨ v = .streamObject ∨ materialized v = true) := by
      intro tag len? val src v rest hd
      rcases ihT _ _ _ _ _ _ hd with ⟨h1, _, _⟩ | ⟨h1, _, _⟩ | h1
      · exact Or.inl h1
      · exact Or.inr (Or.inl h1)
      · exact Or.inr (Or.inr h1)
    refine ⟨?_, ?_, ?_, ?_, ?_, ?_, ?_, ?_⟩
    · -- decodeTLV dispatch
      intro tag len? val src v rest h
      simp only [decodeTLV] at h
      split_ifs at h
      all_goals
        first
          | exact Except.noConfusion h
          | (injection h with h'
             injection h' with h1 h2
             subst h1
             exact Or.inr (Or.inr rfl))
          | (split at h <;>
              first
                | exact Except.noConfusion h
                | (injection h with h'
                   injection h' with h1 h2
                   subst h1
                   exact Or.inr (Or.inr rfl))
                | (split_ifs at h
                   injection h with h'
                   injection h' with h1 h2
                   subst h1
                   exact Or.inr (Or.inr rfl))
                | (rcases ihA _ _ _ _ _ h with ⟨hv, htag, hn⟩ | hm
                   · exact Or.inl ⟨hv, htag, by rw [hn]⟩
                   · exact Or.inr (Or.inr hm))
                | (rcases ihO _ _ _ _ _ h with ⟨hv, htag, hn⟩ | hm
                   · exact Or.inr (Or.inl ⟨hv, htag, by rw [hn]⟩)
                   · exact Or.inr (Or.inr hm)))
    · -- decode_array
      intro tag n src v rest h
      simp only [decode_array] at h
      split_ifs at h with hc
      · injection h with h'
        injection h' with h1 h2
        subst h1
        exact Or.inl ⟨rfl, hc.1, hc.2⟩
      · exact Or.inr (ihAI _ _ _ _ _ h rfl)
    · -- decodeArrayItems loop
      intro n acc src v rest h hacc
      cases n with
      | zero =>
        injection h with h'
        injection h' with h1 h2
        subst h1
        simpa [materialized] using hacc
      | succ n =>
        simp only [decodeArrayItems] at h
        cases hnt : next_tlv a src with
        | error e =>
          rw [hnt] at h
          simp only [exbind_error] at h
          exact Except.noConfusion h
        | ok tlv =>
          obtain ⟨tag, len?, val, src2⟩ := tlv
          rw [hnt] at h
          simp only [exbind_ok] at h
          split at h
          · exact Except.noConfusion h
          · cases hd : decodeTLV a fuel tag len? val src2 with
            | error e =>
              rw [hd] at h
              simp only [exbind_error] at h
              exact Except.noConfusion h
            | ok pr =>
              obtain ⟨item, src3⟩ := pr
              rw [hd] at h
              simp only [exbind_ok] at h
              by_cases hc : (STREAMS.contains tag && len? == some 255) = true
              · rw [if_pos hc] at h
                cases hp : pyListOf a fuel item src3 with
                | error e =>
                  rw [hp] at h
                  simp only [exbind_error] at h
                  exact Except.noConfusion h
                | ok pr2 =>
                  obtain ⟨item2, src4⟩ := pr2
                  rw [hp] at h
                  simp only [exbind_ok] at h
                  have hm2 : materialized item2 = true :=
                    ihL _ _ _ _ hp (ihT3 _ _ _ _ _ _ hd)
                  refine ihAI _ _ _ _ _ h ?_
                  rw [materializedList_append]
                  simp [hacc, materializedList, hm2]
              · rw [if_neg hc] at h
                simp only [expure_bind] at h
                have hm2 : materialized item = true := by
                  rcases ihT _ _ _ _ _ _ hd with ⟨h1, h2, h3⟩ | ⟨h1, h2, h3⟩ | h1
                  · subst h2; subst h3; exact absurd (by decide) hc
                  · subst h2; subst h3; exact absurd (by decide) hc
                  · exact h1
                refine ihAI _ _ _ _ _ h ?_
                rw [materializedList_append]
                simp [hacc, materializedList, hm2]
    · -- decode_object
      intro tag n src v rest h
      simp only [decode_object] at h
      split_ifs at h with hc
      · injection h with h'
        injection h' with h1 h2
        subst h1
        exact Or.inl ⟨rfl, hc.1, hc.2⟩
      · exact Or.inr (ihOI _ _ _ _ _ _ h (fun k hk => nomatch hk) rfl)
    · -- decodeObjectItems loop
      intro n key res src v rest h hkey hres
      cases n with
      | zero =>
        injection h with h'
        injection h' with h1 h2
        subst h1
        simpa [materialized] using hres
      | succ n =>
        simp only [decodeObjectItems] at h
        cases hnt : next_tlv a src with
        | error e =>
          rw [hnt] at h
          simp only [exbind_error] at h
          exact Except.noConfusion h
        | ok tlv =>
          obtain ⟨tag, len?, val, src2⟩ := tlv
          rw [hnt] at h
          simp only [exbind_ok] at h
          -- split_ifs discharges the FORBIDDEN and key-guard error branches
          split_ifs at h with hf hg hc
          · -- value unit carries a streaming-capable tag with length 255
            cases hd : decodeTLV a fuel tag len? val src2 with
            | error e =>
              rw [hd] at h
              simp only [exbind_error] at h
              exact Except.noConfusion h
            | ok pr =>
              obtain ⟨value, src3⟩ := pr
              rw [hd] at h
              simp only [exbind_ok] at h
              cases key with
              | none =>
                have hkeytag : OBJECT_KEYS.contains tag = true := by
                  simpa using hg
                have hvm : materialized value = true := by
                  rcases ihT _ _ _ _ _ _ hd with ⟨_, h2, _⟩ | ⟨_, h2, _⟩ | h1
                  · subst h2; exact absurd hkeytag (by decide)
                  · subst h2; exact absurd hkeytag (by decide)
                  · exact h1
                refine ihOI _ _ _ _ _ _ h ?_ hres
                intro k hk
                injection hk with hk'
                subst hk'
                exact hvm
              | some k =>
                dsimp only at h
                cases hp : pyListOf a fuel value src3 with
                | error e =>
                  rw [hp] at h
                  simp only [exbind_error] at h
                  exact Except.noConfusion h
                | ok pr2 =>
                  obtain ⟨value2, src4⟩ := pr2
                  rw [hp] at h
                  simp only [exbind_ok] at h
                  have hm2 : materialized value2 = true :=
                    ihL _ _ _ _ hp (ihT3 _ _ _ _ _ _ hd)
                  refine ihOI _ _ _ _ _ _ h (fun k' hk' => nomatch hk') ?_
                  exact materializedPairs_dictSet _ _ _ hres (hkey k rfl) hm2
          · -- ordinary value unit
            cases hd : decodeTLV a fuel tag len? val src2 with
            | error e =>
              rw [hd] at h
              simp only [exbind_error] at h
              exact Except.noConfusion h
            | ok pr =>
              obtain ⟨value, src3⟩ := pr
              rw [hd] at h
              simp only [exbind_ok] at h
              cases key with
              | none =>
                have hkeytag : OBJECT_KEYS.contains tag = true := by
                  simpa using hg
                have hvm : materialized value = true := by
                  rcases ihT _ _ _ _ _ _ hd with ⟨_, h2, _⟩ | ⟨_, h2, _⟩ | h1
                  · subst h2; exact absurd hkeytag (by decide)
                  · subst h2; exact absurd hkeytag (by decide)
                  · exact h1
                refine ihOI _ _ _ _ _ _ h ?_ hres
                intro k hk
                injection hk with hk'
                subst hk'
                exact hvm
              | some k =>
                dsimp only at h
                simp only [expure_bind] at h
                have hm2 : materialized value = true := by
                  rcases ihT _ _ _ _ _ _ hd with ⟨h1, h2, h3⟩ | ⟨h1, h2, h3⟩ | h1
                  · subst h2; subst h3; exact absurd (by decide) hc
                  · subst h2; subst h3; exact absurd (by decide) hc
                  · exact h1
                refine ihOI _ _ _ _ _ _ h (fun k' hk' => nomatch hk') ?_
                exact materializedPairs_dictSet _ _ _ hres (hkey k rfl) hm2
    · -- pyListOf
      intro item src v rest h hitem
      cases item <;> simp only [pyListOf] at h <;>
        first
          | exact Except.noConfusion h
          | skip
      case streamArray =>
        cases hr : arrayStreamRun a fuel src with
        | error e =>
          rw [hr] at h
          simp only [exbind_error] at h
          exact Except.noConfusion h
        | ok pr =>
          obtain ⟨items, src2⟩ := pr
          rw [hr] at h
          simp only [exbind_ok] at h
          injection h with h'
          injection h' with h1 h2
          subst h1
          simpa [materialized] using ihAS _ _ _ hr
      case streamObject =>
        cases hr : objectStreamRun a fuel none src with
        | error e =>
          rw [hr] at h
          simp only [exbind_error] at h
          exact Except.noConfusion h
        | ok pr =>
          obtain ⟨pairs, src2⟩ := pr
          rw [hr] at h
          simp only [exbind_ok] at h
          injection h with h'
          injection h' with h1 h2
          subst h1
          simpa [materialized] using
            materializedList_map_tuple _ (ihOS _ _ _ _ hr (fun k hk => nomatch hk))
      case list xs =>
        injection h with h'
        injection h' with h1 h2
        subst h1
        rcases hitem with h1 | h1 | h1
        · exact PyVal.noConfusion h1
        · exact PyVal.noConfusion h1
        · exact h1
      case dict ps =>
        injection h with h'
        injection h' with h1 h2
        subst h1
        rcases hitem with h1 | h1 | h1
        · exact PyVal.noConfusion h1
        · exact PyVal.noConfusion h1
        · simp only [materialized] at h1
          simpa [materialized] using materializedList_map_fst _ h1
    · -- arrayStreamRun
      intro src items rest h
      simp only [arrayStreamRun] at h
      cases hnt : next_tlv a src with
      | error e =>
        rw [hnt] at h
        simp only [exbind_error] at h
        exact Except.noConfusion h
      | ok tlv =>
        obtain ⟨tag, len?, val, src2⟩ := tlv
        rw [hnt] at h
        simp only [exbind_ok] at h
        split at h
        · injection h with h'
          injection h' with h1 h2
          subst h1
          rfl
        · cases hd : decodeTLV a fuel tag len? val src2 with
          | error e =>
            rw [hd] at h
            simp only [exbind_error] at h
            exact Except.noConfusion h
          | ok pr =>
            obtain ⟨item, src3⟩ := pr
            rw [hd] at h
            simp only [exbind_ok] at h
            by_cases hc : (STREAMS.contains tag && len? == some 255) = true
            · rw [if_pos hc] at h
              cases hp : pyListOf a fuel item src3 with
              | error e =>
                rw [hp] at h
                simp only [exbind_error] at h
                exact Except.noConfusion h
              | ok pr2 =>
                obtain ⟨item2, src4⟩ := pr2
                rw [hp] at h
                simp only [exbind_ok] at h
                cases hrec : arrayStreamRun a fuel src4 with
                | error e =>
                  rw [hrec] at h
                  simp only [exbind_error] at h
                  exact Except.noConfusion h
                | ok pr3 =>
                  obtain ⟨items2, src5⟩ := pr3
                  rw [hrec] at h
                  simp only [exbind_ok] at h
                  injection h with h'
                  injection h' with h1 h2
                  subst h1
                  have hm2 : materialized item2 = true :=
                    ihL _ _ _ _ hp (ihT3 _ _ _ _ _ _ hd)
                  simp [materializedList, hm2, ihAS _ _ _ hrec]
            · rw [if_neg hc] at h
              simp only [expure_bind] at h
              cases hrec : arrayStreamRun a fuel src3 with
              | error e =>
                rw [hrec] at h
                simp only [exbind_error] at h
                exact Except.noConfusion h
              | ok pr3 =>
                obtain ⟨items2, src5⟩ := pr3
                rw [hrec] at h
                simp only [exbind_ok] at h
                injection h with h'
                injection h' with h1 h2
                subst h1
                have hm2 : materialized item = true := by
                  rcases ihT _ _ _ _ _ _ hd with ⟨h1, h2, h3⟩ | ⟨h1, h2, h3⟩ | h1
                  · subst h2; subst h3; exact absurd (by decide) hc
                  · subst h2; subst h3; exact absurd (by decide) hc
                  · exact h1
                simp [materializedList, hm2, ihAS _ _ _ hrec]
    · -- objectStreamRun
      intro key src pairs rest h hkey
      simp only [objectStreamRun] at h
      cases hnt : next_tlv a src with
      | error e =>
        rw [hnt] at h
        simp only [exbind_error] at h
        exact Except.noConfusion h
      | ok tlv =>
        obtain ⟨tag, len?, val, src2⟩ := tlv
        rw [hnt] at h
        simp only [exbind_ok] at h
        split_ifs at h with hn1 hn2 he htr hg hc
        · -- NOOP with empty slot: yield the sentinel pair
          cases hrec : objectStreamRun a fuel none src2 with
          | error e =>
            rw [hrec] at h
            simp only [exbind_error] at h
            exact Except.noConfusion h
          | ok pr =>
            obtain ⟨pairs2, src3⟩ := pr
            rw [hrec] at h
            simp only [exbind_ok] at h
            injection h with h'
            injection h' with h1 h2
            subst h1
            simpa [materializedPairs, materialized] using
              ihOS _ _ _ _ hrec (fun k hk => nomatch hk)
        · -- NOOP with a truthy pending key: skip
          exact ihOS _ _ _ _ h hkey
        · -- EOS with an empty (or falsy) slot: the sequence ends
          -- (split_ifs discharges the truthy-key failure and the key-guard
          -- error branches itself)
          injection h with h'
          injection h' with h1 h2
          subst h1
          rfl
        · -- value unit with a streaming-capable tag (no length guard here)
          cases hd : decodeTLV a fuel tag len? val src2 with
          | error e =>
            rw [hd] at h
            simp only [exbind_error] at h
            exact Except.noConfusion h
          | ok pr =>
            obtain ⟨value, src3⟩ := pr
            rw [hd] at h
            simp only [exbind_ok] at h
            cases key with
            | none =>
              have hkeytag : OBJECT_KEYS.contains tag = true := by
                simpa using hg
              have hvm : materialized value = true := by
                rcases ihT _ _ _ _ _ _ hd with ⟨_, h2, _⟩ | ⟨_, h2, _⟩ | h1
                · subst h2; exact absurd hkeytag (by decide)
                · subst h2; exact absurd hkeytag (by decide)
                · exact h1
              refine ihOS _ _ _ _ h ?_
              intro k hk
              injection hk with hk'
              subst hk'
              exact hvm
            | some k =>
              dsimp only at h
              cases hp : pyListOf a fuel value src3 with
              | error e =>
                rw [hp] at h
                simp only [exbind_error] at h
                exact Except.noConfusion h
              | ok pr2 =>
                obtain ⟨value2, src4⟩ := pr2
                rw [hp] at h
                simp only [exbind_ok] at h
                cases hrec : objectStreamRun a fuel none src4 with
                | error e =>
                  rw [hrec] at h
                  simp only [exbind_error] at h
                  exact Except.noConfusion h
                | ok pr3 =>
                  obtain ⟨pairs2, src5⟩ := pr3
                  rw [hrec] at h
                  simp only [exbind_ok] at h
                  injection h with h'
                  injection h' with h1 h2
                  subst h1
                  have hm2 : materialized value2 = true :=
                    ihL _ _ _ _ hp (ihT3 _ _ _ _ _ _ hd)
                  simp [materializedPairs, hkey k rfl, hm2,
                    ihOS _ _ _ _ hrec (fun k' hk' => nomatch hk')]
        · -- value unit with a non-streaming tag: yielded as decoded
          cases hd : decodeTLV a fuel tag len? val src2 with
          | error e =>
            rw [hd] at h
            simp only [exbind_error] at h
            exact Except.noConfusion h
          | ok pr =>
            obtain ⟨value, src3⟩ := pr
            rw [hd] at h
            simp only [exbind_ok] at h
            cases key with
            | none =>
              have hkeytag : OBJECT_KEYS.contains tag = true := by
                simpa using hg
              have hvm : materialized value = true := by
                rcases ihT _ _ _ _ _ _ hd with ⟨_, h2, _⟩ | ⟨_, h2, _⟩ | h1
                · subst h2; exact absurd hkeytag (by decide)
                · subst h2; exact absurd hkeytag (by decide)
                · exact h1
              refine ihOS _ _ _ _ h ?_
              intro k hk
              injection hk with hk'
              subst hk'
              exact hvm
            | some k =>
              dsimp only at h
              cases hrec : objectStreamRun a fuel none src3 with
              | error e =>
                rw [hrec] at h
                simp only [exbind_error] at h
                exact Except.noConfusion h
              | ok pr3 =>
                obtain ⟨pairs2, src5⟩ := pr3
                rw [hrec] at h
                simp only [exbind_ok] at h
                injection h with h'
                injection h' with h1 h2
                subst h1
                have hm2 : materialized value = true := by
                  rcases ihT _ _ _ _ _ _ hd with ⟨h1, h2, h3⟩ | ⟨h1, h2, h3⟩ | h1
                  · subst h2; exact absurd (by decide) hc
                  · subst h2; exact absurd (by decide) hc
                  · exact h1
                simp [materializedPairs, hkey k rfl, hm2,
                  ihOS _ _ _ _ hrec (fun k' hk' => nomatch hk')]

/-- Witness for C5 amended: the invariant applied to the concrete array
stream `B 01 B 02 E`, whose run yields two fully materialized integers. -/
theorem C5_amended_nested_streams_materialized_witness :
    materializedList [PyVal.int 1, PyVal.int 2] = true :=
  (C5_amended_nested_streams_materialized false).1 10 |>.2.2.2.2.2.2.1
    [0x42, 1, 0x42, 2, 0x45] [PyVal.int 1, PyVal.int 2] [] rfl

/-- C6 counterexample: the object stream tests the pending key with `if
key:` (truthiness), so an EOS unit arriving while the pending key is the
empty string ends the sequence normally instead of failing with
EndOfStream: `o FF s 00 E` decodes to the empty pair sequence. -/
theorem C6_eos_with_pending_empty_key_ends_normally :
    decode_next false 32 [0x6F, 0xFF, 0x73, 0, 0x45] = .ok (.streamObject, [0x73, 0, 0x45])
    ∧ objectStreamRun false 32 none [0x73, 0, 0x45] = .ok ([], []) :=
  ⟨rfl, rfl⟩

/-- C6 amended: an EOS unit in the unsized object stream fails with
EndOfStream ("value missed for key") exactly when the pending key is a
nonempty text; with an empty slot or a pending empty-string key the
sequence ends normally. In particular `o FF E` decodes to the empty pair
sequence and `o FF s 01 'k' E` fails. -/
theorem C6_amended_eos_only_fails_on_truthy_key (a : Bool) (fuel : Nat)
    (s : List Nat) (src : List Nat) :
    objectStreamRun a (fuel + 1) (some (.str s)) (EOS :: src)
      = (if s.isEmpty then .ok ([], src)
         else .error (.earlyEndOfStream "value missed for key"))
    ∧ objectStreamRun a (fuel + 1) none (EOS :: src) = .ok ([], src)
    ∧ decode_next false 32 [0x6F, 0xFF, 0x45] = .ok (.streamObject, [0x45])
    ∧ objectStreamRun false 32 none [0x45] = .ok ([], [])
    ∧ objectStreamRun false 32 none [0x73, 1, 107, 0x45]
      = .error (.earlyEndOfStream "value missed for key") := by
  refine ⟨?_, ?_, rfl, rfl, rfl⟩
  · cases a <;> cases s <;> rfl
  · cases a <;> rfl

/-- C7: with a pending key held, a value unit whose tag is the short
Object tag but whose length is an ordinary sized length is decoded to a
dict and then passed through `list(...)` anyway (the `tag in STREAMS`
test on source line 295 lacks the `length == 255` guard every other
container path has), so the stream yields the dict's key list instead of
the dict: `o FF s 01 'k' o 01 s 01 'a' B 05 E` yields
`('k', ['a'])`, while the ordinary decode of the same value unit (third
conjunct) is `{'a': 5}`. -/
theorem C7_sized_object_value_yields_key_list :
    decode_next false 32 [0x6F, 0xFF, 0x73, 1, 107, 0x6F, 1, 0x73, 1, 97, 0x42, 5, 0x45]
      = .ok (.streamObject, [0x73, 1, 107, 0x6F, 1, 0x73, 1, 97, 0x42, 5, 0x45])
    ∧ objectStreamRun false 32 none [0x73, 1, 107, 0x6F, 1, 0x73, 1, 97, 0x42, 5, 0x45]
      = .ok ([(.str [107], .list [.str [97]])], [])
    ∧ decode_next false 32 [0x6F, 1, 0x73, 1, 97, 0x42, 5]
      = .ok (.dict [(.str [97], .int 5)], []) :=
  ⟨rfl, rfl, rfl⟩

/-- C9 counterexample: a short Text unit declaring 5 payload bytes but
followed by only 2 decodes successfully to the truncated text "ab" — the
decoder returns a value built from a truncated payload instead of failing
with EndOfStream. -/
theorem C9_truncated_text_decodes_to_value :
    decode_next false 32 [0x73, 5, 97, 98] = .ok (.str [97, 98], []) :=
  rfl

/-- Helper for C9: the dispatch of a short Text unit returns the payload
bytes as text whenever they are valid UTF-8. -/
theorem decodeTLV_string_short (a : Bool) (fuel : Nat) (len? : Option Nat)
    (bs : List Nat) (src : List Nat) (hv : utf8Valid bs = true) :
    decodeTLV a (fuel + 1) STRING_S len? (.bytesV bs) src = .ok (.str bs, src) := by
  simp [decodeTLV, hv, NOOP, NULL, FALSE, TRUE, INT8, INT16, INT32, INT64,
    FLOAT, DOUBLE, STRING_S, STRING_L]

/-- C9 amended: only the tag read reports EndOfStream ("nothing to
decode"). A source ending inside a fixed-width numeric payload or a
length field (short or long) fails with a different error
(`struct.error` from `unpack`, `TypeError` from `ord`); and a declared
text or decimal payload that ends early is not detected as truncated:
the bytes actually read are processed as the whole payload, yielding a
value built from the truncated payload whenever those bytes are
themselves decodable (valid UTF-8 text), and otherwise failing with
the payload decoder's own error — `UnicodeDecodeError` for an
invalid-UTF-8 truncation, `decimal.InvalidOperation` for an unparsable
truncated decimal — never with EndOfStream. -/
theorem C9_amended_truncation_behavior (a : Bool) (fuel : Nat) :
    decode_next a fuel [] = .error (.earlyEndOfStream "nothing to decode")
    ∧ (∀ b : Nat, decode_next a fuel [0x69, b] = .error .structError)
    ∧ decode_next a fuel [0x42] = .error (.typeError "ord() expected a character")
    ∧ decode_next a fuel [0x73] = .error (.typeError "ord() expected a character")
    ∧ (∀ b1 b2 : Nat, decode_next a fuel [0x53, b1, b2] = .error .structError)
    ∧ (∀ (b : Nat) (payload : List Nat), payload.length < b → b < 255 →
        utf8Valid payload = true →
        decode_next a (fuel + 1) (0x73 :: b :: payload) = .ok (.str payload, []))
    ∧ decode_next a (fuel + 1) [0x73, 2, 0xC3] = .error .unicodeDecodeError
    ∧ decode_next a (fuel + 1) [0x68, 2, 0x2D] = .error .invalidOperation := by
  refine ⟨?_, fun b => ?_, ?_, ?_, fun b1 b2 => ?_, fun b payload h1 h2 hv => ?_,
    ?_, ?_⟩
  · cases a <;> rfl
  · cases a <;> rfl
  · cases a <;> rfl
  · cases a <;> rfl
  · cases a <;> rfl
  · have htake : payload.take b = payload := List.take_of_length_le (Nat.le_of_lt h1)
    have hdrop : payload.drop b = [] := List.drop_eq_nil_of_le (Nat.le_of_lt h1)
    have hb : ¬ (b ≥ 255) := by omega
    have hnt : next_tlv a (0x73 :: b :: payload)
        = .ok (0x73, some b, .bytesV payload, []) := by
      cases a <;>
        simp [next_tlv, readN, dropNoops, htake, hdrop, hb,
          NUMBERS, SHORT_OBJ, STRINGS, NOOP, INT8, INT16, INT32, INT64, FLOAT, DOUBLE,
          STRING_S, STRING_L, HIDEF_S, HIDEF_L]
    simp only [decode_next, hnt]
    exact decodeTLV_string_short a fuel (some b) payload [] hv
  · cases a <;> rfl
  · cases a <;> rfl

/-- Witness for C9 amended: a short Text unit declaring 9 bytes with only
2 (valid-UTF-8) bytes present decodes to those 2 bytes. -/
theorem C9_amended_truncation_behavior_witness :
    decode_next false 33 [0x73, 9, 104, 105] = .ok (.str [104, 105], []) :=
  (C9_amended_truncation_behavior false 32).2.2.2.2.2.1 9 [104, 105]
    (by decide) (by decide) (by decide)

/-- C10: the encoder dispatches on the exact runtime type. A Bool always
takes the Bool rule and is the one-byte False/True tag; a value whose
exact type has no table entry (`foreign`, e.g. an instance of a strict
subclass of `list`) fails with EncodeError when no default transform is
configured; and no integer encoding is ever a single byte, so a Bool is
never encoded by the integer rule. -/
theorem C10_exact_type_dispatch :
    (∀ b : Bool, encodeNext (.bool b) = .ok (encode_bool b))
    ∧ encode_bool false = [FALSE]
    ∧ encode_bool true = [TRUE]
    ∧ encodeNext .foreign = .error (.encodeError "unable to encode")
    ∧ (∀ (i : Int) (l : List Nat), encode_int i = .ok l → 2 ≤ l.length) := by
  refine ⟨fun b => rfl, rfl, rfl, rfl, fun i l h => ?_⟩
  rw [encode_int] at h
  split_ifs at h with h1 h2 h3 h4
  · cases h
    simp
  · cases h
    simp [packBE, natToBE]
  · cases h
    simp [packBE, natToBE]
  · cases h
    simp [packBE, natToBE]
  · rw [encode_decimal] at h
    split_ifs at h with h5 h6
    · cases h
      simp
    · cases h
      simp [natToBE]
      omega

/-- Witness for C10: the integer 5 encodes to the two-byte Int8 unit. -/
theorem C10_exact_type_dispatch_witness :
    2 ≤ ([0x42, 5] : List Nat).length :=
  C10_exact_type_dispatch.2.2.2.2 5 [0x42, 5] rfl

/-- C8: an empty source fails with `EarlyEndOfStreamError` saying there is
nothing to decode, and an unrecognized first byte (0x00) fails with
`MarkerError` carrying that byte value. -/
theorem C8_empty_and_bad_marker (a : Bool) (fuel : Nat) :
    decode_next a fuel [] = .error (.earlyEndOfStream "nothing to decode")
    ∧ decode_next a fuel [0] = .error (.markerError 0) := by
  cases a <;>
    exact ⟨rfl, rfl⟩

end Draft8
